import Mathlib

/-!
Shallow embedding of the web-service router of planet_crs_registry
(src/planet_crs_registry/core/routers/ws_router.py).

Strings are modelled as `List Char`, the record store as a list of records in
insertion order, and each HTTP handler as a pure function from the store and
its (already validated) parameters to either a value or an `ApiError`
(HTTP 404 / HTTP 400 with a detail string).  The Tortoise-ORM queryset chain
`filter(...).limit(l).offset(o)` is modelled as SQL LIMIT/OFFSET over the
filtered rows in insertion order: drop `offset` rows, then take `limit` rows;
`count()` after `limit`/`offset` counts the paginated slice.
-/

/-- A row of the WKT table (models.WKT_model): one WKT record. -/
structure WktRecord where
  id : List Char
  version : Int
  code : Int
  solar_body : List Char
  datum_name : List Char
  ellipsoid_name : List Char
  projection_name : List Char
  wkt : List Char
  deriving DecidableEq, Repr

/-- The record store: all rows in insertion order. -/
abbrev Store := List WktRecord

/-- A queryset: filtered rows plus an optional LIMIT and OFFSET. -/
structure QuerySet where
  rows : List WktRecord
  qlimit : Option Nat
  qoffset : Option Nat
  deriving DecidableEq, Repr

/-- Build a queryset from filtered rows, with no LIMIT and no OFFSET yet. -/
def QuerySet.ofRows (rows : List WktRecord) : QuerySet :=
  { rows := rows, qlimit := none, qoffset := none }

/-- Queryset `.limit(n)`. -/
def QuerySet.limit (q : QuerySet) (n : Nat) : QuerySet :=
  { q with qlimit := some n }

/-- Queryset `.offset(n)`. -/
def QuerySet.offset (q : QuerySet) (n : Nat) : QuerySet :=
  { q with qoffset := some n }

/-- Evaluate a queryset: SQL applies OFFSET first, then LIMIT. -/
def QuerySet.eval (q : QuerySet) : List WktRecord :=
  let d := q.rows.drop (q.qoffset.getD 0)
  match q.qlimit with
  | none => d
  | some n => d.take n

/-- Queryset `.count()`: the number of rows the queryset evaluates to. -/
def QuerySet.count (q : QuerySet) : Nat :=
  q.eval.length

/-- Lowercasing, modelling both Python str.lower() and SQL LOWER() on the
ASCII strings the registry stores. -/
def lowerStr (s : List Char) : List Char :=
  s.map Char.toLower

/-- An HTTP error raised by a handler: 404 or 400, with its detail message. -/
inductive ApiError where
  | notFound (detail : List Char)
  | badRequest (detail : List Char)
  deriving DecidableEq, Repr

/-- Handler outcome: a value, or an HTTP error. -/
abbrev Api (α : Type) := Except ApiError α

instance {ε α : Type} [DecidableEq ε] [DecidableEq α] : DecidableEq (Except ε α)
  | .error a, .error b =>
    if h : a = b then .isTrue (by rw [h])
    else .isFalse (fun hc => h (by cases hc; rfl))
  | .error _, .ok _ => .isFalse (fun hc => Except.noConfusion hc)
  | .ok _, .error _ => .isFalse (fun hc => Except.noConfusion hc)
  | .ok a, .ok b =>
    if h : a = b then .isTrue (by rw [h])
    else .isFalse (fun hc => h (by cases hc; rfl))

/-- Tests whether an outcome is an HTTP 404 error. -/
def isNotFoundError {α : Type} : Api α → Bool
  | .error (.notFound _) => true
  | _ => false

/-- The kind of an ApiError, with the detail message forgotten. -/
inductive ApiErrorKind where
  | notFound
  | badRequest
  deriving DecidableEq, Repr

/-- Forget an error's detail message, keeping only its HTTP status. -/
def ApiError.kind : ApiError → ApiErrorKind
  | .notFound _ => .notFound
  | .badRequest _ => .badRequest

/-- Forget the detail messages of an outcome, keeping payloads and statuses. -/
def stripDetail {α : Type} : Api α → Except ApiErrorKind α
  | .error e => .error e.kind
  | .ok a => .ok a

/-- WKT_model.all(): every row, in insertion order. -/
def wktAll (store : Store) : QuerySet :=
  .ofRows store

/-- WKT_model.filter(version=v). -/
def filterVersion (store : Store) (v : Int) : QuerySet :=
  .ofRows (store.filter (fun r => r.version == v))

/-- WKT_model.annotate(solar_body_lower=Lower("solar_body")).filter(solar_body_lower=b.lower()). -/
def filterSolarBody (store : Store) (b : List Char) : QuerySet :=
  .ofRows (store.filter (fun r => lowerStr r.solar_body == lowerStr b))

/-- The default of the `limit` query parameter (LIMIT_QUERY: Query(50, gt=-1, le=100)). -/
def LIMIT_QUERY_default : Int := 50

/-- The default of the `offset` query parameter (OFFSET_QUERY: Query(0, gt=-1)). -/
def OFFSET_QUERY_default : Int := 0

/-- Validation of the `limit` query parameter: Query(50, gt=-1, le=100). -/
def validLimit (l : Int) : Prop := -1 < l ∧ l ≤ 100

/-- Validation of the `offset` query parameter: Query(0, gt=-1). -/
def validOffset (o : Int) : Prop := -1 < o

instance (l : Int) : Decidable (validLimit l) := by
  unfold validLimit; infer_instance

instance (o : Int) : Decidable (validOffset o) := by
  unfold validOffset; infer_instance

/-- GET /wkts: WKT_model.all().limit(limit).offset(offset). -/
def get_wkts (store : Store) (l o : Nat) : List WktRecord :=
  (((wktAll store).limit l).offset o).eval

/-- GET /wkts/count: WKT_model.all().count(). -/
def wkts_count (store : Store) : Nat :=
  (wktAll store).count

/-- Insert a value into a sorted duplicate-free list, keeping it sorted and
duplicate-free; used to model SQL GROUP BY field ORDER BY field. -/
def insertSorted {α : Type} [LinearOrder α] (a : α) : List α → List α
  | [] => [a]
  | b :: bs => if a < b then a :: b :: bs else if a = b then b :: bs else b :: insertSorted a bs

/-- The sorted duplicate-free list of values occurring in a list, modelling
SQL GROUP BY field ORDER BY field over the rows. -/
def sortedDistinct {α : Type} [LinearOrder α] (xs : List α) : List α :=
  xs.foldr insertSorted []

/-- GET /versions: group_by("version").order_by("version").values("version"). -/
def get_versions (store : Store) : List Int :=
  sortedDistinct (store.map (fun r => r.version))

/-- GET /versions/{version_id}: filter by version, paginate, 404 on empty result. -/
def get_version (store : Store) (v : Int) (l o : Nat) : Api (List WktRecord) :=
  let obj := (((filterVersion store v).limit l).offset o).eval
  if obj.length = 0 then
    .error (.notFound ((toString v).data ++ (" not found").data))
  else
    .ok obj

/-- GET /versions/{version_id}/count: WKT_model.filter(version=version_id).count(). -/
def version_count (store : Store) (v : Int) : Nat :=
  (filterVersion store v).count

/-- Modelled from the spec: the Query/Search collaborator
query_search.get_wkt_obj (module planet_crs_registry.core.business, absent
from the supplied source) looks a record up by its id and fails with
NotFound (HTTP 404, message naming the unmatched key) when no record has
that id. -/
def get_wkt_obj (store : Store) (wkt_id : List Char) : Api WktRecord :=
  match store.find? (fun r => r.id == wkt_id) with
  | some r => .ok r
  | none => .error (.notFound (wkt_id ++ (" not found").data))

/-- GET /versions/{version_id}/{wkt_id}: look up by id, then 400 unless the
record's version equals the path version, else return its wkt. -/
def get_wkt_version (store : Store) (v : Int) (wkt_id : List Char) : Api (List Char) :=
  match get_wkt_obj store wkt_id with
  | .error e => .error e
  | .ok w =>
    if w.version ≠ v then
      .error (.badRequest ((("Wrong version ").data ++ (toString v).data ++ (" for this WKT ").data) ++ wkt_id))
    else
      .ok w.wkt

/-- GET /wkts/{wkt_id}: look up by id and return the record's wkt. -/
def get_wkt (store : Store) (wkt_id : List Char) : Api (List Char) :=
  match get_wkt_obj store wkt_id with
  | .error e => .error e
  | .ok w => .ok w.wkt

/-- GET /solar_bodies: group_by("solar_body").order_by("solar_body").values("solar_body"). -/
def get_solar_bodies (store : Store) : List (List Char) :=
  sortedDistinct (store.map (fun r => r.solar_body))

/-- GET /solar_bodies/count: the same grouped query, returning the length of
the built list. -/
def solar_bodies_count (store : Store) : Nat :=
  (sortedDistinct (store.map (fun r => r.solar_body))).length

/-- GET /solar_bodies/{solar_body}: case-insensitive filter, paginate, 404 on
empty result. -/
def get_solar_body (store : Store) (b : List Char) (l o : Nat) : Api (List WktRecord) :=
  let obj := (((filterSolarBody store b).limit l).offset o).eval
  if obj.length = 0 then
    .error (.notFound (b ++ (" not found").data))
  else
    .ok obj

/-- GET /solar_bodies/{solar_body}/count: case-insensitive filter, then
limit, offset and count — the count of the paginated slice. -/
def get_solar_body_count (store : Store) (b : List Char) (l o : Nat) : Nat :=
  (((filterSolarBody store b).limit l).offset o).count

/-- GET /solar_bodies/{solar_body}/{wkt_id}: look up by id, then 400 unless
the record's solar_body matches case-insensitively, else return its wkt. -/
def get_wkt_body (store : Store) (b : List Char) (wkt_id : List Char) : Api (List Char) :=
  match get_wkt_obj store wkt_id with
  | .error e => .error e
  | .ok w =>
    if lowerStr w.solar_body ≠ lowerStr b then
      .error (.badRequest ((wkt_id ++ (" not found for ").data) ++ b))
    else
      .ok w.wkt

/-- Consume a (possibly empty) run of digits followed by a colon from the
front of a reversed string; return the rest. -/
def digitsThenColon (r : List Char) : Option (List Char) :=
  match r.dropWhile Char.isDigit with
  | [] => none
  | c :: rest => if c = ':' then some rest else none

/-- Executable form of the handler-side id validation of
GET /versions/{version_id}/{wkt_id} and GET /solar_bodies/{solar_body}/{wkt_id}:
Python re.match against the anchored pattern caret dot-star colon
digit-star colon digit-star dollar — the dot excludes the newline
character, and both digit groups may be empty. -/
def wktIdRegexAnchored (s : List Char) : Bool :=
  match digitsThenColon s.reverse with
  | none => false
  | some r2 =>
    match digitsThenColon r2 with
    | none => false
    | some rest => rest.all (fun c => c != '\n')

/-- Executable form of the id validation of GET /wkts/{wkt_id}: Python
re.match against caret dot-star colon digit-star colon digit-star with no
end anchor, so a match on any prefix suffices; since the final digit group
may be empty, a prefix of shape dot-star colon digit-star colon decides
acceptance. -/
def wktIdRegexOpenEnd : List Char → Bool
  | [] => false
  | c :: rest => (c == ':' && (digitsThenColon rest).isSome) || (c != '\n' && wktIdRegexOpenEnd rest)

/-- Consume a NON-empty run of digits followed by a colon from the front of
a reversed string; return the rest. -/
def nonemptyDigitsThenColon (r : List Char) : Option (List Char) :=
  match r with
  | [] => none
  | c :: rest => if c.isDigit then digitsThenColon rest else none

/-- Modelled from the spec's words for claim C3: the anchored pattern caret
dot-star colon digit-plus colon digit-plus dollar, whose last two
colon-separated groups are NON-empty digit strings. -/
def specWktIdPattern (s : List Char) : Bool :=
  match nonemptyDigitsThenColon s.reverse with
  | none => false
  | some r2 =>
    match nonemptyDigitsThenColon r2 with
    | none => false
    | some rest => rest.all (fun c => c != '\n')

/-- Modelled from the spec: an entry of the bundled reference dataset as
exposed by WktDatabase().index (module planet_crs_registry.core.business,
absent from the supplied source); per the data model, iau_version is an
integer report year and iau_code an integer code, both rendered in decimal
inside the derived id. -/
structure WktDatasetRecord where
  iau_version : Nat
  iau_code : Nat
  datum : List Char
  ellipsoid : List Char
  projcrs : List Char
  wkt : List Char
  deriving DecidableEq, Repr

/-- The loader's solar-body derivation: Python re.match of one-or-more
non-whitespace characters against the start of the datum, then .group(0);
the match is None — and the dereference raises — exactly when the datum does
not start with a non-whitespace character. -/
def matchSolarBody (datum : List Char) : Option (List Char) :=
  match datum.takeWhile (fun c => !c.isWhitespace) with
  | [] => none
  | t => some t

/-- Build one stored record from one dataset entry, as the startup loop
does; none models the loop raising on the solar-body derivation. -/
def loadRecord (e : WktDatasetRecord) : Option WktRecord :=
  match matchSolarBody e.datum with
  | none => none
  | some tok =>
    some
      { id := ("IAU:").data ++ (toString e.iau_version).data ++ (":").data ++ (toString e.iau_code).data
        version := Int.ofNat e.iau_version
        code := Int.ofNat e.iau_code
        solar_body := tok
        datum_name := e.datum
        ellipsoid_name := e.ellipsoid
        projection_name := e.projcrs
        wkt := e.wkt }

/-- The startup ingestion loop: insert the records one by one, aborting on
the first entry whose record construction raises. -/
def startup_event : List WktDatasetRecord → Option (List WktRecord)
  | [] => some []
  | e :: es =>
    match loadRecord e, startup_event es with
    | some r, some rs => some (r :: rs)
    | _, _ => none

/-- A sample stored record used to instantiate proved theorems. -/
def marsRecord : WktRecord :=
  { id := ("IAU:2015:1000").data
    version := 2015
    code := 1000
    solar_body := ("Mars").data
    datum_name := ("Mars (2015) - Sphere").data
    ellipsoid_name := ("Sphere (2015)").data
    projection_name := ("No projection").data
    wkt := ("GEOGCRS[Mars (2015) - Sphere]").data }

/-- A sample dataset entry used to instantiate proved theorems. -/
def sampleEntry : WktDatasetRecord :=
  { iau_version := 2015
    iau_code := 1000
    datum := ("Mars (2015) - Sphere").data
    ellipsoid := ("Sphere (2015)").data
    projcrs := ("No projection").data
    wkt := ("GEOGCRS[Mars (2015) - Sphere]").data }

/-- The record the loader builds from sampleEntry. -/
def sampleLoaded : WktRecord :=
  { id := ("IAU:2015:1000").data
    version := 2015
    code := 1000
    solar_body := ("Mars").data
    datum_name := ("Mars (2015) - Sphere").data
    ellipsoid_name := ("Sphere (2015)").data
    projection_name := ("No projection").data
    wkt := ("GEOGCRS[Mars (2015) - Sphere]").data }


lemma eval_ofRows_limit_offset (rows : List WktRecord) (l o : Nat) :
    (((QuerySet.ofRows rows).limit l).offset o).eval = (rows.drop o).take l := rfl

lemma count_ofRows_limit_offset (rows : List WktRecord) (l o : Nat) :
    (((QuerySet.ofRows rows).limit l).offset o).count = min l (rows.length - o) := by
  unfold QuerySet.count
  rw [eval_ofRows_limit_offset, List.length_take, List.length_drop]

lemma mem_insertSorted {α : Type} [LinearOrder α] (a x : α) :
    ∀ (l : List α), x ∈ insertSorted a l ↔ x = a ∨ x ∈ l
  | [] => by simp [insertSorted]
  | b :: bs => by
    unfold insertSorted
    split_ifs with h1 h2
    · simp [List.mem_cons]
    · subst h2
      simp only [List.mem_cons]
      tauto
    · simp only [List.mem_cons, mem_insertSorted a x bs]
      tauto

lemma sorted_insertSorted {α : Type} [LinearOrder α] (a : α) :
    ∀ (l : List α), l.Sorted (· < ·) → (insertSorted a l).Sorted (· < ·)
  | [], _ => by simp [insertSorted]
  | b :: bs, h => by
    rw [List.sorted_cons] at h
    obtain ⟨hb, hbs⟩ := h
    unfold insertSorted
    by_cases h1 : a < b
    · simp only [if_pos h1]
      rw [List.sorted_cons]
      refine ⟨?_, ?_⟩
      · intro x hx
        rcases List.mem_cons.mp hx with rfl | hx'
        · exact h1
        · exact h1.trans (hb x hx')
      · rw [List.sorted_cons]
        exact ⟨hb, hbs⟩
    · by_cases h2 : a = b
      · simp only [if_neg h1, if_pos h2]
        rw [List.sorted_cons]
        exact ⟨hb, hbs⟩
      · simp only [if_neg h1, if_neg h2]
        rw [List.sorted_cons]
        refine ⟨?_, sorted_insertSorted a bs hbs⟩
        intro x hx
        rcases (mem_insertSorted a x bs).mp hx with rfl | hx'
        · exact lt_of_le_of_ne (not_lt.mp h1) (fun hba => h2 hba.symm)
        · exact hb x hx'

lemma sorted_sortedDistinct {α : Type} [LinearOrder α] :
    ∀ (xs : List α), (sortedDistinct xs).Sorted (· < ·)
  | [] => List.sorted_nil
  | x :: xs => sorted_insertSorted x (sortedDistinct xs) (sorted_sortedDistinct xs)

lemma mem_sortedDistinct {α : Type} [LinearOrder α] (x : α) :
    ∀ (xs : List α), x ∈ sortedDistinct xs ↔ x ∈ xs
  | [] => Iff.rfl
  | y :: ys => by
    show x ∈ insertSorted y (sortedDistinct ys) ↔ _
    rw [mem_insertSorted, mem_sortedDistinct x ys, List.mem_cons]

lemma nodup_sortedDistinct {α : Type} [LinearOrder α] (xs : List α) :
    (sortedDistinct xs).Nodup :=
  (sorted_sortedDistinct xs).imp ne_of_lt

/-- C1: for every solar body b and pagination parameters, the solar-body
count endpoint applies limit and offset to the case-insensitive filter
result before counting, so it returns the size of the paginated slice,
min(limit, max(0, N − offset)) where N is the full filtered count. -/
theorem C1_solar_body_count_is_paginated_slice (store : Store) (b : List Char) (l o : Nat) :
    get_solar_body_count store b l o =
      min l ((store.filter (fun r => lowerStr r.solar_body == lowerStr b)).length - o)
    ∧ (get_solar_body_count store b l o : Int) =
      min (l : Int)
        (max 0 (((store.filter (fun r => lowerStr r.solar_body == lowerStr b)).length : Int) - (o : Int))) := by
  have h : get_solar_body_count store b l o =
      min l ((store.filter (fun r => lowerStr r.solar_body == lowerStr b)).length - o) :=
    count_ofRows_limit_offset _ l o
  refine ⟨h, ?_⟩
  rw [h]
  omega

lemma get_version_eq (store : Store) (v : Int) (l o : Nat) :
    get_version store v l o =
      if (((store.filter (fun r => r.version == v)).drop o).take l).length = 0 then
        .error (.notFound ((toString v).data ++ (" not found").data))
      else
        .ok (((store.filter (fun r => r.version == v)).drop o).take l) := rfl

/-- C4 counterexample: with a single version-2015 record in the store,
GET /versions/2015 with limit 50 and offset 5 returns HTTP 404 although the
version filter matches one record — the 404 is decided by the pagination
window, contrary to the claim. -/
theorem C4_offset_past_matches_gives_404 :
    (([marsRecord] : Store).filter (fun r => r.version == 2015)).length = 1
    ∧ isNotFoundError (get_version [marsRecord] 2015 50 5) = true := by decide

/-- C4 amended: GET /versions/{v} fails with HTTP 404 exactly when the
paginated window (skip offset, take limit) of the version-filtered records
is empty — zero matches, but also limit 0 or an offset at or past the last
matching record. -/
theorem C4_404_iff_paginated_window_empty (store : Store) (v : Int) (l o : Nat) :
    isNotFoundError (get_version store v l o) = true ↔
      ((store.filter (fun r => r.version == v)).drop o).take l = [] := by
  rw [get_version_eq]
  split_ifs with hlen
  · exact iff_of_true rfl (List.length_eq_zero.mp hlen)
  · constructor
    · intro hc
      exact absurd hc (by simp [isNotFoundError])
    · intro hc
      exact absurd (by rw [hc]; rfl) hlen

/-- C5: the limit parameter defaults to 50 and is accepted iff it lies in
[0, 100], the offset parameter defaults to 0 and is accepted iff it is
nonnegative, and GET /wkts returns at most limit records, skipping the
first offset records, preserving the store's insertion order. -/
theorem C5_pagination_contract :
    (∀ l : Int, validLimit l ↔ (0 ≤ l ∧ l ≤ 100))
    ∧ (∀ o : Int, validOffset o ↔ 0 ≤ o)
    ∧ LIMIT_QUERY_default = 50
    ∧ OFFSET_QUERY_default = 0
    ∧ (∀ (store : Store) (l o : Nat),
        get_wkts store l o = (store.drop o).take l
        ∧ (get_wkts store l o).length ≤ l
        ∧ (get_wkts store l o).Sublist store) := by
  refine ⟨fun l => ?_, fun o => ?_, rfl, rfl, fun store l o => ?_⟩
  · unfold validLimit
    omega
  · unfold validOffset
    omega
  · have h : get_wkts store l o = (store.drop o).take l := rfl
    refine ⟨h, ?_, ?_⟩
    · rw [h, List.length_take]
      exact min_le_left _ _
    · rw [h]
      exact (List.take_sublist _ _).trans (List.drop_sublist _ _)

/-- C7: GET /versions returns the ascending, duplicate-free list of the
version values occurring among the records, and GET /solar_bodies returns
the ascending, duplicate-free list of the solar_body values occurring among
the records; both are derived from the stored records. -/
theorem C7_versions_and_bodies_sorted_distinct (store : Store) :
    ((get_versions store).Sorted (· < ·)
      ∧ (get_versions store).Nodup
      ∧ ∀ v : Int, v ∈ get_versions store ↔ ∃ r ∈ store, r.version = v)
    ∧ ((get_solar_bodies store).Sorted (· < ·)
      ∧ (get_solar_bodies store).Nodup
      ∧ ∀ b : List Char, b ∈ get_solar_bodies store ↔ ∃ r ∈ store, r.solar_body = b) := by
  refine ⟨⟨sorted_sortedDistinct _, nodup_sortedDistinct _, fun v => ?_⟩,
          ⟨sorted_sortedDistinct _, nodup_sortedDistinct _, fun b => ?_⟩⟩
  · show v ∈ sortedDistinct (store.map (fun r => r.version)) ↔ _
    rw [mem_sortedDistinct, List.mem_map]
  · show b ∈ sortedDistinct (store.map (fun r => r.solar_body)) ↔ _
    rw [mem_sortedDistinct, List.mem_map]

/-- C8: GET /solar_bodies/count returns the number of distinct solar_body
values across all records, which equals the length of the list returned by
GET /solar_bodies on the same store. -/
theorem C8_solar_bodies_count_eq_list_length (store : Store) :
    solar_bodies_count store = (get_solar_bodies store).length
    ∧ solar_bodies_count store = (store.map (fun r => r.solar_body)).dedup.length := by
  refine ⟨rfl, ?_⟩
  have h1 : (sortedDistinct (store.map (fun r => r.solar_body))).Nodup :=
    nodup_sortedDistinct _
  have h2 : ((store.map (fun r => r.solar_body)).dedup).Nodup :=
    List.nodup_dedup _
  have hp : List.Perm (sortedDistinct (store.map (fun r => r.solar_body)))
      ((store.map (fun r => r.solar_body)).dedup) :=
    (List.perm_ext_iff_of_nodup h1 h2).mpr
      (fun a => by rw [mem_sortedDistinct, List.mem_dedup])
  exact hp.length_eq

/-- C2: for every version v > 2014 and well-formed wkt_id,
GET /versions/{v}/{wkt_id} first looks the record up by id — failing with
HTTP 404 when no record has that id — then fails with HTTP 400 when the
found record's version differs from v, and returns the record's wkt string
when it matches. -/
theorem C2_get_wkt_version_lookup_then_version_check (store : Store) (v : Int)
    (wkt_id : List Char) (_hv : 2014 < v) :
    (store.find? (fun r => r.id == wkt_id) = none →
        get_wkt_version store v wkt_id =
          .error (.notFound (wkt_id ++ (" not found").data)))
    ∧ (∀ w, store.find? (fun r => r.id == wkt_id) = some w → w.version ≠ v →
        get_wkt_version store v wkt_id =
          .error (.badRequest ((("Wrong version ").data ++ (toString v).data ++ (" for this WKT ").data) ++ wkt_id)))
    ∧ (∀ w, store.find? (fun r => r.id == wkt_id) = some w → w.version = v →
        get_wkt_version store v wkt_id = .ok w.wkt) := by
  refine ⟨?_, ?_, ?_⟩
  · intro h
    simp [get_wkt_version, get_wkt_obj, h]
  · intro w h hne
    simp [get_wkt_version, get_wkt_obj, h, hne]
  · intro w h heq
    simp [get_wkt_version, get_wkt_obj, h, heq]

/-- Witness for C2: the version-mismatch branch at a concrete store. -/
theorem C2_witness_version_mismatch :
    get_wkt_version [marsRecord] 2016 (("IAU:2015:1000").data) =
      .error (.badRequest ((("Wrong version ").data ++ (toString (2016 : Int)).data ++ (" for this WKT ").data) ++ ("IAU:2015:1000").data)) :=
  (C2_get_wkt_version_lookup_then_version_check [marsRecord] 2016
      (("IAU:2015:1000").data) (by decide)).2.1 marsRecord (by decide) (by decide)

/-- C6 counterexample: two solar-body spellings equal after lowercasing give
different HTTP responses when the outcome is an error, because the 404/400
detail message echoes the caller's spelling. -/
theorem C6_error_detail_echoes_casing :
    get_solar_body ([] : Store) (("mars").data) 50 0 ≠ get_solar_body ([] : Store) (("MARS").data) 50 0
    ∧ get_wkt_body [marsRecord] (("venus").data) (("IAU:2015:1000").data)
        ≠ get_wkt_body [marsRecord] (("VENUS").data) (("IAU:2015:1000").data)
    ∧ lowerStr (("mars").data) = lowerStr (("MARS").data)
    ∧ lowerStr (("venus").data) = lowerStr (("VENUS").data) := by decide

/-- C6 amended: the solar-body match is case-insensitive on both sides: for
solar-body spellings equal after lowercasing, GET /solar_bodies/{b} and
GET /solar_bodies/{b}/{wkt_id} return the same outcome — identical success
payloads and identical HTTP statuses — differing at most in the error
detail message, which echoes the caller's spelling. -/
theorem C6_case_insensitive_match_up_to_detail (store : Store) (b1 b2 : List Char)
    (l o : Nat) (wkt_id : List Char) (h : lowerStr b1 = lowerStr b2) :
    stripDetail (get_solar_body store b1 l o) = stripDetail (get_solar_body store b2 l o)
    ∧ stripDetail (get_wkt_body store b1 wkt_id) = stripDetail (get_wkt_body store b2 wkt_id) := by
  constructor
  · unfold get_solar_body filterSolarBody
    rw [h]
    by_cases hc : ((((QuerySet.ofRows (store.filter (fun r => lowerStr r.solar_body == lowerStr b2))).limit l).offset o).eval).length = 0
    · simp [hc, stripDetail, ApiError.kind]
    · simp [hc, stripDetail]
  · cases hob : get_wkt_obj store wkt_id with
    | error e => simp [get_wkt_body, hob]
    | ok w =>
      simp only [get_wkt_body, hob]
      rw [h]
      split_ifs <;> rfl

/-- Witness for C6: identical stripped outcomes at a concrete store for the
spellings MARS and mArS. -/
theorem C6_witness_same_outcome :
    stripDetail (get_solar_body [marsRecord] (("MARS").data) 50 0) =
      stripDetail (get_solar_body [marsRecord] (("mArS").data) 50 0)
    ∧ stripDetail (get_wkt_body [marsRecord] (("MARS").data) (("IAU:2015:1000").data)) =
      stripDetail (get_wkt_body [marsRecord] (("mArS").data) (("IAU:2015:1000").data)) :=
  C6_case_insensitive_match_up_to_detail [marsRecord] (("MARS").data) (("mArS").data)
    50 0 (("IAU:2015:1000").data) (by decide)

lemma matchSolarBody_eq_some (d tok : List Char) :
    matchSolarBody d = some tok ↔
      tok = d.takeWhile (fun c => !c.isWhitespace) ∧ tok ≠ [] := by
  unfold matchSolarBody
  cases h : d.takeWhile (fun c => !c.isWhitespace) with
  | nil => simp
  | cons c cs =>
    constructor
    · intro hk
      have hck := Option.some.inj hk
      subst hck
      exact ⟨rfl, by simp⟩
    · rintro ⟨rfl, -⟩
      rfl

/-- C9: every record the startup loader inserts satisfies the invariant
that its id is the concatenation IAU: version : code built from its own
version and code fields (rendered in decimal), and its solar_body is the
first whitespace-delimited token of its datum_name (the maximal non-empty
run of non-whitespace characters at the start); since no API operation
mutates records, the invariant persists for the service lifetime. -/
theorem C9_loader_id_and_solar_body_invariant :
    ∀ (entries : List WktDatasetRecord) (recs : List WktRecord),
      startup_event entries = some recs →
      ∀ r ∈ recs,
        r.id = ("IAU:").data ++ (toString r.version).data ++ (":").data ++ (toString r.code).data
        ∧ r.solar_body = r.datum_name.takeWhile (fun c => !c.isWhitespace)
        ∧ r.solar_body ≠ []
  | [], recs, h => by
    obtain rfl : recs = [] := (Option.some.inj h).symm
    intro r hr
    cases hr
  | e :: es, recs, h => by
    unfold startup_event at h
    cases hl : loadRecord e with
    | none =>
      cases hs : startup_event es <;> rw [hl, hs] at h <;> cases h
    | some r0 =>
      cases hs : startup_event es with
      | none => rw [hl, hs] at h; cases h
      | some rs =>
        rw [hl, hs] at h
        obtain rfl : recs = r0 :: rs := (Option.some.inj h).symm
        intro r hr
        rcases List.mem_cons.mp hr with rfl | hr'
        · unfold loadRecord at hl
          cases hm : matchSolarBody e.datum with
          | none => rw [hm] at hl; cases hl
          | some tok =>
            rw [hm] at hl
            obtain rfl := Option.some.inj hl
            obtain ⟨htok, hne⟩ := (matchSolarBody_eq_some e.datum tok).mp hm
            exact ⟨rfl, htok, hne⟩
        · exact C9_loader_id_and_solar_body_invariant es rs hs r hr'

/-- Witness for C9: the invariant instantiated at the record the loader
builds from the sample dataset entry. -/
theorem C9_witness_sample_entry :
    sampleLoaded.id = ("IAU:").data ++ (toString sampleLoaded.version).data ++ (":").data ++ (toString sampleLoaded.code).data
    ∧ sampleLoaded.solar_body = sampleLoaded.datum_name.takeWhile (fun c => !c.isWhitespace)
    ∧ sampleLoaded.solar_body ≠ [] :=
  C9_loader_id_and_solar_body_invariant [sampleEntry] [sampleLoaded] (by decide)
    sampleLoaded (by decide)

lemma startup_event_cons_isSome (e : WktDatasetRecord) (es : List WktDatasetRecord) :
    (startup_event (e :: es)).isSome = ((loadRecord e).isSome && (startup_event es).isSome) := by
  cases hl : loadRecord e <;> cases hs : startup_event es <;>
    simp [startup_event, hl, hs]

lemma loadRecord_isSome_iff (e : WktDatasetRecord) :
    (loadRecord e).isSome = true ↔
      ∃ c rest, e.datum = c :: rest ∧ c.isWhitespace = false := by
  unfold loadRecord matchSolarBody
  cases hd : e.datum with
  | nil =>
    simp
  | cons c cs =>
    by_cases hw : c.isWhitespace
    · rw [List.takeWhile_cons]
      simp only [hw, Bool.not_true, Bool.false_eq_true, if_false]
      constructor
      · intro hcontra
        exact absurd hcontra (by simp)
      · rintro ⟨c', rest, hcc, hw'⟩
        obtain ⟨rfl, -⟩ := List.cons_eq_cons.mp hcc
        rw [hw] at hw'
        cases hw'
    · rw [List.takeWhile_cons]
      simp only [hw, Bool.not_false, if_true]
      constructor
      · intro _
        exact ⟨c, cs, rfl, by simp [hw]⟩
      · intro _
        rfl

/-- C10: the startup ingestion succeeds exactly when every dataset entry's
datum starts with a non-whitespace character; an empty datum or one
beginning with whitespace makes the solar-body regex match None, the
dereference raise, and startup abort. -/
theorem C10_startup_succeeds_iff_datum_heads_nonspace (entries : List WktDatasetRecord) :
    (startup_event entries).isSome = true ↔
      ∀ e ∈ entries, ∃ c rest, e.datum = c :: rest ∧ c.isWhitespace = false := by
  induction entries with
  | nil => simp [startup_event]
  | cons e es ih =>
    rw [startup_event_cons_isSome, Bool.and_eq_true, ih, loadRecord_isSome_iff]
    constructor
    · rintro ⟨he, hes⟩ x hx
      rcases List.mem_cons.mp hx with rfl | hx'
      · exact he
      · exact hes x hx'
    · intro hall
      exact ⟨hall e (by simp), fun x hx => hall x (by simp [hx])⟩

/-- Witness for C10: the loader succeeds on the sample entry, whose datum
starts with a non-whitespace character. -/
theorem C10_witness_sample_entry : (startup_event [sampleEntry]).isSome = true :=
  (C10_startup_succeeds_iff_datum_heads_nonspace [sampleEntry]).mpr (by
    intro e he
    rw [List.mem_singleton.mp he]
    exact ⟨'M', (("ars (2015) - Sphere").data), by decide, by decide⟩)

lemma dropWhile_append_of_all (p : Char → Bool) :
    ∀ (d l : List Char), (∀ c ∈ d, p c = true) → (d ++ l).dropWhile p = l.dropWhile p
  | [], _, _ => rfl
  | c :: d, l, h => by
    have hc : p c = true := h c (List.mem_cons_self c d)
    rw [List.cons_append, List.dropWhile_cons, if_pos hc]
    exact dropWhile_append_of_all p d l (fun x hx => h x (List.mem_cons_of_mem c hx))

lemma digitsThenColon_eq_some_iff (r rest : List Char) :
    digitsThenColon r = some rest ↔
      ∃ d, r = d ++ ':' :: rest ∧ ∀ c ∈ d, c.isDigit = true := by
  constructor
  · intro h
    unfold digitsThenColon at h
    cases hdw : r.dropWhile Char.isDigit with
    | nil =>
      rw [hdw] at h
      exact absurd h (by simp)
    | cons c cs =>
      simp only [hdw] at h
      by_cases hc : c = ':'
      · rw [if_pos hc] at h
        obtain rfl : cs = rest := Option.some.inj h
        subst hc
        refine ⟨r.takeWhile Char.isDigit, ?_, fun x hx => List.mem_takeWhile_imp hx⟩
        conv_lhs => rw [← List.takeWhile_append_dropWhile Char.isDigit r]
        rw [hdw]
      · rw [if_neg hc] at h
        cases h
  · rintro ⟨d, rfl, hd⟩
    unfold digitsThenColon
    have hstep : List.dropWhile Char.isDigit (':' :: rest) = ':' :: rest := by
      rw [List.dropWhile_cons, if_neg (by decide : ¬(Char.isDigit ':' = true))]
    rw [dropWhile_append_of_all Char.isDigit d (':' :: rest) hd, hstep]
    simp

lemma wktIdRegexAnchored_iff (s : List Char) :
    wktIdRegexAnchored s = true ↔
      ∃ a d1 d2 : List Char,
        s = a ++ ':' :: (d1 ++ ':' :: d2)
        ∧ (∀ c ∈ a, c ≠ '\n')
        ∧ (∀ c ∈ d1, c.isDigit = true)
        ∧ (∀ c ∈ d2, c.isDigit = true) := by
  unfold wktIdRegexAnchored
  constructor
  · intro h
    cases h1 : digitsThenColon s.reverse with
    | none => rw [h1] at h; cases h
    | some r2 =>
      simp only [h1] at h
      cases h2 : digitsThenColon r2 with
      | none => rw [h2] at h; cases h
      | some rest =>
        simp only [h2] at h
        obtain ⟨d2r, hs, hd2⟩ := (digitsThenColon_eq_some_iff _ _).mp h1
        obtain ⟨d1r, hr2, hd1⟩ := (digitsThenColon_eq_some_iff _ _).mp h2
        refine ⟨rest.reverse, d1r.reverse, d2r.reverse, ?_, ?_, ?_, ?_⟩
        · have hrev : s.reverse = d2r ++ ':' :: (d1r ++ ':' :: rest) := by rw [hs, hr2]
          calc s = s.reverse.reverse := (List.reverse_reverse s).symm
          _ = (d2r ++ ':' :: (d1r ++ ':' :: rest)).reverse := by rw [hrev]
          _ = rest.reverse ++ ':' :: (d1r.reverse ++ ':' :: d2r.reverse) := by
                simp [List.reverse_append, List.reverse_cons, List.append_assoc]
        · intro c hc
          have := (List.all_eq_true.mp h) c (List.mem_reverse.mp hc)
          simpa using this
        · intro c hc
          exact hd1 c (List.mem_reverse.mp hc)
        · intro c hc
          exact hd2 c (List.mem_reverse.mp hc)
  · rintro ⟨a, d1, d2, rfl, ha, hd1, hd2⟩
    have h1 : digitsThenColon (a ++ ':' :: (d1 ++ ':' :: d2)).reverse
        = some (d1.reverse ++ ':' :: a.reverse) := by
      apply (digitsThenColon_eq_some_iff _ _).mpr
      refine ⟨d2.reverse, ?_, fun c hc => hd2 c (List.mem_reverse.mp hc)⟩
      simp [List.reverse_append, List.reverse_cons, List.append_assoc]
    have h2 : digitsThenColon (d1.reverse ++ ':' :: a.reverse) = some a.reverse := by
      apply (digitsThenColon_eq_some_iff _ _).mpr
      exact ⟨d1.reverse, rfl, fun c hc => hd1 c (List.mem_reverse.mp hc)⟩
    simp only [h1, h2]
    rw [List.all_eq_true]
    intro c hc
    have := ha c (List.mem_reverse.mp hc)
    simpa using this

lemma wktIdRegexOpenEnd_iff : ∀ (s : List Char),
    wktIdRegexOpenEnd s = true ↔
      ∃ a d1 rest : List Char,
        s = a ++ ':' :: (d1 ++ ':' :: rest)
        ∧ (∀ c ∈ a, c ≠ '\n')
        ∧ (∀ c ∈ d1, c.isDigit = true)
  | [] => by
    constructor
    · intro h
      cases h
    · rintro ⟨a, d1, rest, habs, -, -⟩
      exact absurd habs.symm (by simp)
  | c :: cs => by
    unfold wktIdRegexOpenEnd
    constructor
    · intro h
      rw [Bool.or_eq_true] at h
      rcases h with h | h
      · rw [Bool.and_eq_true] at h
        obtain ⟨hc, hds⟩ := h
        obtain rfl : c = ':' := by simpa using hc
        obtain ⟨rest, hrest⟩ := Option.isSome_iff_exists.mp hds
        obtain ⟨d, rfl, hd⟩ := (digitsThenColon_eq_some_iff _ _).mp hrest
        exact ⟨[], d, rest, rfl, by simp, hd⟩
      · rw [Bool.and_eq_true] at h
        obtain ⟨hcn, hrec⟩ := h
        obtain ⟨a, d1, rest, hcs, ha, hd1⟩ := (wktIdRegexOpenEnd_iff cs).mp hrec
        refine ⟨c :: a, d1, rest, by rw [List.cons_append, hcs], ?_, hd1⟩
        intro x hx
        rcases List.mem_cons.mp hx with rfl | hx'
        · simpa using hcn
        · exact ha x hx'
    · rintro ⟨a, d1, rest, heq, ha, hd1⟩
      cases a with
      | nil =>
        rw [List.nil_append] at heq
        obtain ⟨rfl, rfl⟩ := List.cons_eq_cons.mp heq
        rw [Bool.or_eq_true]
        left
        rw [Bool.and_eq_true]
        refine ⟨by simp, ?_⟩
        apply Option.isSome_iff_exists.mpr
        exact ⟨rest, (digitsThenColon_eq_some_iff _ _).mpr ⟨d1, rfl, hd1⟩⟩
      | cons x a' =>
        rw [List.cons_append] at heq
        obtain ⟨rfl, hcs⟩ := List.cons_eq_cons.mp heq
        rw [Bool.or_eq_true]
        right
        rw [Bool.and_eq_true]
        constructor
        · have hcn : c ≠ '\n' := ha c (List.mem_cons_self c a')
          simpa using hcn
        · exact (wktIdRegexOpenEnd_iff cs).mpr
            ⟨a', d1, rest, hcs, fun y hy => ha y (List.mem_cons_of_mem c hy), hd1⟩

/-- C3 counterexample: the string a:: — whose last two colon-separated
segments are empty — is accepted by the id validation of
GET /versions/{v}/{wkt_id} (the code's digit groups are starred, not
plussed), and IAU:2015:1000x — trailing character after the digits — is
accepted by the id validation of GET /wkts/{wkt_id} (its pattern has no end
anchor); both are rejected by the pattern the claim states. -/
theorem C3_empty_digits_and_open_end_accepted :
    wktIdRegexAnchored (("a::").data) = true
    ∧ specWktIdPattern (("a::").data) = false
    ∧ wktIdRegexOpenEnd (("IAU:2015:1000x").data) = true
    ∧ specWktIdPattern (("IAU:2015:1000x").data) = false := by decide

/-- C3 amended: a wkt_id is accepted by GET /versions/{v}/{wkt_id} and
GET /solar_bodies/{b}/{wkt_id} iff it decomposes as anything (without
newline), a colon, a possibly empty digit string, a colon, and a possibly
empty digit string reaching the end; and by GET /wkts/{wkt_id} iff some
prefix decomposes as anything (without newline), a colon, a possibly empty
digit string, and a colon — the end is unanchored, so trailing characters
are allowed there. Strings without two such colons, like notanid, are
rejected before any lookup. -/
theorem C3_code_regex_semantics :
    (∀ s : List Char, wktIdRegexAnchored s = true ↔
      ∃ a d1 d2 : List Char,
        s = a ++ ':' :: (d1 ++ ':' :: d2)
        ∧ (∀ c ∈ a, c ≠ '\n')
        ∧ (∀ c ∈ d1, c.isDigit = true)
        ∧ (∀ c ∈ d2, c.isDigit = true))
    ∧ (∀ s : List Char, wktIdRegexOpenEnd s = true ↔
      ∃ a d1 rest : List Char,
        s = a ++ ':' :: (d1 ++ ':' :: rest)
        ∧ (∀ c ∈ a, c ≠ '\n')
        ∧ (∀ c ∈ d1, c.isDigit = true))
    ∧ wktIdRegexAnchored (("notanid").data) = false
    ∧ wktIdRegexOpenEnd (("notanid").data) = false :=
  ⟨wktIdRegexAnchored_iff, wktIdRegexOpenEnd_iff, by decide, by decide⟩

/-- Witness for C3: the amended characterization instantiated at the
well-formed identifier IAU:2015:1000. -/
theorem C3_code_regex_witness :
    wktIdRegexAnchored (("IAU:2015:1000").data) = true :=
  (C3_code_regex_semantics.1 (("IAU:2015:1000").data)).mpr
    ⟨("IAU").data, ("2015").data, ("1000").data, by decide, by decide, by decide, by decide⟩
